import Mathlib

/-!
Shallow embedding of the BrainPhart voice-recorder core
(`Sources/VoiceRecorderCore`): the session/burst data model, the durable
store operations of `DatabaseManager`, the transcription and crash-recovery
logic of `StorageManager`, the stubbed decoder of `AudioConverter`, and the
metering computation of `AudioRecorder`.

External collaborators (the SQLite engine, the FFmpeg device/codec layer and
the whisper inference engine) are modelled by explicit parameters: boolean
success flags for SQLite statement outcomes where a claim depends on them,
and a `TranscriptionEnv` record holding the decode / inference / progress
oracles consumed by `StorageManager::transcribe_session`.
-/

/-- Recording session status (`Types.hpp`, `enum class RecordingStatus`). -/
inductive RecordingStatus where
  | recording
  | transcribing
  | complete
  | failed
deriving DecidableEq, Repr

/-- Status enum to the string stored in SQLite (`Types.hpp`,
`status_to_string`).  The C++ `switch` covers every enum value, so the
trailing `return "unknown"` is unreachable and the total match below is the
faithful embedding. -/
def status_to_string : RecordingStatus → String
  | .recording => "recording"
  | .transcribing => "transcribing"
  | .complete => "complete"
  | .failed => "failed"

/-- Parse a status string from SQLite back to the enum (`Types.hpp`,
`status_from_string`); unrecognized strings fall through to `failed`. -/
def status_from_string (s : String) : RecordingStatus :=
  if s = "recording" then .recording
  else if s = "transcribing" then .transcribing
  else if s = "complete" then .complete
  else if s = "failed" then .failed
  else .failed

/-- One recording session (`Types.hpp`, `struct RecordingSession`).
SQL NULLs for `completed_at` / `duration_ms` / `transcript` are read back as
`0` / `0` / `""` by `DatabaseManager`, so those defaults are used here. -/
structure RecordingSession where
  id : String
  created_at : Int
  completed_at : Int
  status : RecordingStatus
  duration_ms : Int
  transcript : String
deriving DecidableEq, Repr

/-- A single 35-second audio burst (`Types.hpp`, `struct AudioChunk`). -/
structure AudioChunk where
  session_id : String
  chunk_index : Int
  audio_data : List UInt8
  duration_ms : Int
deriving DecidableEq, Repr

/-- The persisted store: the `sessions` and `chunks` tables, rows kept in
insertion order (`DatabaseManager::create_tables`). -/
structure DbState where
  sessions : List RecordingSession
  chunks : List AudioChunk
deriving DecidableEq, Repr

/-- Ordering used by `ORDER BY chunk_index ASC` in
`DatabaseManager::get_chunks`. -/
def chunkLe (a b : AudioChunk) : Prop := a.chunk_index ≤ b.chunk_index

instance : DecidableRel chunkLe :=
  fun a b => inferInstanceAs (Decidable (a.chunk_index ≤ b.chunk_index))

instance : IsTotal AudioChunk chunkLe := ⟨fun _ _ => Int.le_total _ _⟩

instance : IsTrans AudioChunk chunkLe := ⟨fun _ _ _ h h' => le_trans h h'⟩

/-- Ordering used by `ORDER BY created_at DESC` in
`DatabaseManager::get_sessions` / `get_orphaned_sessions`. -/
def sessionNewer (a b : RecordingSession) : Prop := b.created_at ≤ a.created_at

instance : DecidableRel sessionNewer :=
  fun a b => inferInstanceAs (Decidable (b.created_at ≤ a.created_at))

instance : IsTotal RecordingSession sessionNewer := ⟨fun _ _ => Int.le_total _ _⟩

instance : IsTrans RecordingSession sessionNewer := ⟨fun _ _ _ h h' => le_trans h' h⟩

/-- `DatabaseManager::create_session` (DatabaseManager.cpp:161): inserts a
row with status `recording`; returns the empty id when the database is
unavailable or the INSERT fails (`ok = false`), in which case the
transaction rolls back and the store is untouched. -/
def db_create_session (st : DbState) (ok : Bool) (new_id : String) (now : Int) :
    String × DbState :=
  if ok then
    (new_id,
      { st with sessions := (st.sessions ++
          [{ id := new_id, created_at := now, completed_at := 0,
             status := .recording, duration_ms := 0, transcript := "" }]) })
  else ("", st)

/-- `DatabaseManager::update_status` (DatabaseManager.cpp:215): `UPDATE
sessions SET status = ? WHERE id = ?`.  Claims about recovery and
transcription describe runs in which these UPDATEs succeed, so the SQLite
failure branch (return `false`, state untouched) is not modelled here. -/
def db_update_status (st : DbState) (session_id : String)
    (status : RecordingStatus) : DbState :=
  { st with sessions := (st.sessions.map
      (fun s => if s.id = session_id then { s with status := status } else s)) }

/-- `DatabaseManager::mark_failed` (DatabaseManager.cpp:211): sugar for
status → `failed`. -/
def db_mark_failed (st : DbState) (session_id : String) : DbState :=
  db_update_status st session_id .failed

/-- `DatabaseManager::update_transcript` (DatabaseManager.cpp:185): sets
transcript, total duration, status `complete` and completion timestamp in
one statement. -/
def db_update_transcript (st : DbState) (session_id : String)
    (transcript : String) (duration_ms : Int) (now : Int) : DbState :=
  { st with sessions := (st.sessions.map
      (fun s => if s.id = session_id then
          { s with transcript := transcript, duration_ms := duration_ms,
                   status := .complete, completed_at := now }
        else s)) }

/-- `DatabaseManager::add_chunk` (DatabaseManager.cpp:356): INSERT of one
burst row (appended in insertion order). -/
def db_add_chunk (st : DbState) (session_id : String) (chunk_index : Int)
    (audio_data : List UInt8) (duration_ms : Int) : DbState :=
  { st with chunks := (st.chunks ++
      [{ session_id := session_id, chunk_index := chunk_index,
         audio_data := audio_data, duration_ms := duration_ms }]) }

/-- `DatabaseManager::get_chunks` (DatabaseManager.cpp:385): `SELECT ...
FROM chunks WHERE session_id = ? ORDER BY chunk_index ASC`.  The WHERE
clause is the filter, the ORDER BY is a sort by `chunk_index`. -/
def db_get_chunks (st : DbState) (session_id : String) : List AudioChunk :=
  List.insertionSort chunkLe (st.chunks.filter (fun c => c.session_id == session_id))

/-- `DatabaseManager::get_sessions` (DatabaseManager.cpp:266): all sessions
ordered by creation time descending. -/
def db_get_sessions (st : DbState) : List RecordingSession :=
  List.insertionSort sessionNewer st.sessions

/-- `DatabaseManager::get_orphaned_sessions` (DatabaseManager.cpp:323):
sessions with status `recording`, ordered by creation time descending. -/
def db_get_orphaned_sessions (st : DbState) : List RecordingSession :=
  List.insertionSort sessionNewer
    (st.sessions.filter (fun s => s.status == RecordingStatus.recording))

/-- `DatabaseManager::delete_session` (DatabaseManager.cpp:295): inside one
transaction, DELETE the session's chunk rows, then the session row.
`db_open` models the `if (!db_) return false` guard; `stmt_chunks_ok` /
`stmt_sessions_ok` model the prepare/step outcome of the two DELETE
statements.  Any failure returns `false` and the `Transaction` destructor
rolls back, leaving the prior state untouched. -/
def db_delete_session (st : DbState) (db_open stmt_chunks_ok stmt_sessions_ok : Bool)
    (session_id : String) : Bool × DbState :=
  if !db_open then (false, st)
  else if !stmt_chunks_ok then (false, st)
  else
    let st1 : DbState :=
      { st with chunks := st.chunks.filter (fun c => !(c.session_id == session_id)) }
    if !stmt_sessions_ok then (false, st)
    else (true, { st1 with sessions :=
      (st1.sessions.filter (fun s => !(s.id == session_id))) })

/-- `AudioConverter::m4a_to_pcm` (AudioConverter.cpp:31).  The FFmpeg decode
pipeline is a TODO in the source; the function is a stub that returns the
empty PCM vector for every input (`// STUB: return empty — no FFmpeg linked
yet.`). -/
def m4a_to_pcm (input_path : String) (target_sample_rate : Int) : List ℚ :=
  let _ := input_path
  let _ := target_sample_rate
  ([] : List ℚ)

/-- External collaborators consumed by `StorageManager::transcribe_session`:
`decode` is the write-blob-to-temp-file plus `AudioConverter::m4a_to_pcm`
step (an empty result covers both an unwritable temp file and a failed
decode, which the loop treats identically via `continue`); `whisperText` is
the text returned by `WhisperEngine::transcribe`; `whisperProg` is the
sequence of progress fractions the engine reports through its progress
callback while transcribing a buffer; `now` is `DatabaseManager::now_unix`. -/
structure TranscriptionEnv where
  decode : List UInt8 → List ℚ
  whisperText : List ℚ → String
  whisperProg : List ℚ → List ℚ
  now : Int

/-- Per-burst transcription result as seen by the concatenation loop in
`StorageManager::transcribe_session` (StorageManager.cpp:180-217): a burst
whose decode yields no PCM is skipped and contributes the empty string,
otherwise the engine's text is contributed. -/
def chunk_text (env : TranscriptionEnv) (c : AudioChunk) : String :=
  if (env.decode c.audio_data).isEmpty then ""
  else env.whisperText (env.decode c.audio_data)

/-- One step of the transcript concatenation (StorageManager.cpp:212-217):
non-empty text is appended, with a single separating space when the running
transcript is already non-empty. -/
def transcript_step (acc text : String) : String :=
  if text = "" then acc
  else if acc = "" then text
  else acc ++ " " ++ text

/-- The full transcript produced by the loop of
`StorageManager::transcribe_session` over a chunk list. -/
def transcript_of (env : TranscriptionEnv) (chunks : List AudioChunk) : String :=
  chunks.foldl (fun acc c => transcript_step acc (chunk_text env c)) ""

/-- `StorageManager::transcribe_session` (StorageManager.cpp:161-231),
projected onto its return value and database effect: no chunks → mark the
session failed and return empty; otherwise concatenate the per-burst texts;
an empty final transcript marks the session failed, a non-empty one is
persisted together with the summed burst duration (status `complete`). -/
def transcribe_session (env : TranscriptionEnv) (st : DbState)
    (session_id : String) : String × DbState :=
  let chunks := db_get_chunks st session_id
  if chunks.isEmpty then ("", db_mark_failed st session_id)
  else
    let total_duration_ms := (chunks.map (fun c => c.duration_ms)).sum
    let full_transcript := transcript_of env chunks
    if full_transcript = "" then (full_transcript, db_mark_failed st session_id)
    else (full_transcript,
      db_update_transcript st session_id full_transcript total_duration_ms env.now)

/-- Progress values delivered for the burst at position `i` of `n`
(StorageManager.cpp:201-211): a skipped burst delivers nothing; otherwise
each engine progress value `p` is mapped through the per-chunk callback
`base + p * chunk_weight` with `base = i * (1/n)` and `chunk_weight = 1/n`. -/
def chunk_progress_events (env : TranscriptionEnv) (n i : ℕ) (c : AudioChunk) :
    List ℚ :=
  if (env.decode c.audio_data).isEmpty then []
  else (env.whisperProg (env.decode c.audio_data)).map
    (fun p => (i : ℚ) * (1 / (n : ℚ)) + p * (1 / (n : ℚ)))

/-- The loop of `StorageManager::transcribe_session` projected onto the
calls made to the progress callback; the trailing `[1]` is the
unconditional `progress(1.0f)` fired after the loop
(StorageManager.cpp:228). -/
def progress_events_loop (env : TranscriptionEnv) (n : ℕ) :
    ℕ → List AudioChunk → List ℚ
  | _, [] => [1]
  | i, c :: rest =>
      chunk_progress_events env n i c ++ progress_events_loop env n (i + 1) rest

/-- All values delivered to the progress callback during one call of
`StorageManager::transcribe_session`: nothing when there are no chunks (the
early return fires before any progress), otherwise the loop's events
followed by the final `1.0`. -/
def session_progress_events (env : TranscriptionEnv) (st : DbState)
    (session_id : String) : List ℚ :=
  if (db_get_chunks st session_id).isEmpty then []
  else progress_events_loop env (db_get_chunks st session_id).length 0
    (db_get_chunks st session_id)

/-- External outcomes consumed by `StorageManager::start_recording`
(StorageManager.cpp:62-100): whether the recorder is already active, whether
the `create_session` INSERT succeeds, the generated UUID, whether
`AudioRecorder::start_recording` succeeds (device and encoder open), and the
wall clock. -/
structure StartEnv where
  already_recording : Bool
  create_ok : Bool
  new_session_id : String
  recorder_ok : Bool
  now : Int

/-- `StorageManager::start_recording` (StorageManager.cpp:62-100): refuse
when already recording; create the session row (empty id on failure aborts);
then start the recorder, and on recorder failure mark the just-created
session `failed` and return the empty id. -/
def start_recording (env : StartEnv) (st : DbState) : String × DbState :=
  if env.already_recording then ("", st)
  else
    let created := db_create_session st env.create_ok env.new_session_id env.now
    if created.1 = "" then ("", created.2)
    else if env.recorder_ok then (created.1, created.2)
    else ("", db_mark_failed created.2 created.1)

/-- One iteration of the recovery loop in
`StorageManager::recover_orphaned_sessions` (StorageManager.cpp:263-279):
no persisted chunks → mark failed; otherwise set status `transcribing` and
run the ordinary transcription path. -/
def recover_step (env : TranscriptionEnv) (st : DbState) (session_id : String) :
    DbState :=
  if (db_get_chunks st session_id).isEmpty then db_mark_failed st session_id
  else (transcribe_session env (db_update_status st session_id .transcribing)
          session_id).2

/-- `StorageManager::recover_orphaned_sessions` (StorageManager.cpp:260-280):
fold the recovery step over the snapshot of orphaned sessions. -/
def recover_orphaned_sessions (env : TranscriptionEnv) (st : DbState) : DbState :=
  (db_get_orphaned_sessions st).foldl (fun acc s => recover_step env acc s.id) st

/-- Expected final row for an orphaned session, phrased the way the spec
states it: zero persisted bursts → `failed`; otherwise `complete` exactly
when some burst yields text, with the concatenated transcript and summed
duration persisted; `failed` when no burst yields text. -/
def recover_outcome (env : TranscriptionEnv) (chunks : List AudioChunk)
    (s : RecordingSession) : RecordingSession :=
  if chunks.isEmpty then { s with status := .failed }
  else if chunks.all (fun c => chunk_text env c == "") then { s with status := .failed }
  else { s with status := .complete,
                transcript := transcript_of env chunks,
                duration_ms := (chunks.map (fun c => c.duration_ms)).sum,
                completed_at := env.now }

/-- Spec-side description of the final transcript: the non-empty per-burst
segments joined with exactly one space between consecutive segments. -/
def join_with_space : List String → String
  | [] => ""
  | [t] => t
  | t :: t' :: rest => t ++ " " ++ join_with_space (t' :: rest)

/-- `AudioRecorder::compute_rms` (AudioRecorder.cpp:351-362): `0` for a null
or empty buffer, otherwise the square root of the mean of the squared
samples, clamped to `[0, 1]` by `std::min(1, std::max(0, rms))`. -/
noncomputable def compute_rms (samples : List ℝ) : ℝ :=
  if samples.length = 0 then 0
  else
    let sum := (samples.map (fun x => x * x)).sum
    let rms := Real.sqrt (sum / (samples.length : ℝ))
    min 1 (max 0 rms)

/-- Spec-side description of the exposed level: the root-mean-square energy
of the frame, clamped to `[0, 1]`.  For the empty frame the mean is the
empty sum over zero samples, i.e. `0`. -/
noncomputable def rms_clamped_spec (samples : List ℝ) : ℝ :=
  min 1 (max 0 (Real.sqrt (((samples.map (fun x => x * x)).sum) / (samples.length : ℝ))))

/-- The atomic `current_level_` after the capture loop has processed a
sequence of PCM frames (AudioRecorder.cpp:161-168): each non-empty frame
stores its `compute_rms`; empty packets leave the level unchanged; the
initial value is `0.0f`. -/
noncomputable def level_after_frames (frames : List (List ℝ)) : ℝ :=
  frames.foldl (fun level frame => if 0 < frame.length then compute_rms frame else level) 0

/-- `AudioRecorder::get_metering` (AudioRecorder.cpp:127-129): an atomic
load of `current_level_`. -/
def get_metering (current_level : ℝ) : ℝ := current_level

/-- Claim C10: `status_from_string` inverts `status_to_string` on every
status value, and maps every unrecognized string to `failed`. -/
theorem C10_status_round_trip (s : RecordingStatus) (str : String) :
    status_from_string (status_to_string s) = s
    ∧ (str ≠ "recording" → str ≠ "transcribing" → str ≠ "complete" →
        str ≠ "failed" → status_from_string str = RecordingStatus.failed) := by
  constructor
  · cases s <;> rfl
  · intro h1 h2 h3 h4
    simp [status_from_string, h1, h2, h3, h4]

/-- Witness for C10 at the status `recording` and the unrecognized string
`"bogus"`. -/
theorem C10_status_round_trip_witness :
    status_from_string (status_to_string RecordingStatus.recording)
        = RecordingStatus.recording
    ∧ status_from_string "bogus" = RecordingStatus.failed :=
  ⟨(C10_status_round_trip RecordingStatus.recording "bogus").1,
   (C10_status_round_trip RecordingStatus.failed "bogus").2
     (by decide) (by decide) (by decide) (by decide)⟩

lemma str_append_ne_empty (a b : String) (h : a ≠ "") : a ++ b ≠ "" := by
  intro hab
  apply h
  have hd : (a ++ b).data = "".data := by rw [hab]
  rw [String.data_append] at hd
  exact String.ext (List.append_eq_nil.mp hd).1

lemma transcript_step_ne_empty (acc t : String) (h : acc ≠ "") :
    transcript_step acc t ≠ "" := by
  unfold transcript_step
  by_cases ht : t = ""
  · simpa [ht] using h
  · simp only [ht, if_false, if_neg h]
    exact str_append_ne_empty _ _ (str_append_ne_empty _ _ h)

lemma foldl_step_ne_empty (texts : List String) :
    ∀ acc, acc ≠ "" → texts.foldl transcript_step acc ≠ "" := by
  induction texts with
  | nil => intro acc h; exact h
  | cons t ts ih =>
      intro acc h
      exact ih _ (transcript_step_ne_empty acc t h)

lemma foldl_step_filter (texts : List String) :
    ∀ acc, texts.foldl transcript_step acc
      = (texts.filter (fun t => !(t == ""))).foldl transcript_step acc := by
  induction texts with
  | nil => intro acc; rfl
  | cons t ts ih =>
      intro acc
      by_cases ht : t = ""
      · simp [ht, List.filter_cons, transcript_step, ih acc]
      · simp [List.filter_cons, ht, ih (transcript_step acc t)]

lemma foldl_step_join (texts : List String) (hne : ∀ t ∈ texts, t ≠ "") :
    ∀ acc, acc ≠ "" →
      texts.foldl transcript_step acc
        = if texts.isEmpty then acc else acc ++ " " ++ join_with_space texts := by
  induction texts with
  | nil => intro acc _; rfl
  | cons t ts ih =>
      intro acc hacc
      have ht : t ≠ "" := hne t (List.mem_cons_self t ts)
      have hstep : transcript_step acc t = acc ++ " " ++ t := by
        simp [transcript_step, ht, hacc]
      have hacc' : acc ++ " " ++ t ≠ "" :=
        str_append_ne_empty _ _ (str_append_ne_empty _ _ hacc)
      have := ih (fun x hx => hne x (List.mem_cons_of_mem t hx)) (acc ++ " " ++ t) hacc'
      cases ts with
      | nil => simp [hstep, join_with_space]
      | cons t' r =>
          simp only [List.foldl_cons, hstep] at this ⊢
          rw [this]
          simp [join_with_space, String.append_assoc]

lemma foldl_step_empty_join (texts : List String) (hne : ∀ t ∈ texts, t ≠ "") :
    texts.foldl transcript_step "" = join_with_space texts := by
  cases texts with
  | nil => rfl
  | cons t ts =>
      have ht : t ≠ "" := hne t (List.mem_cons_self t ts)
      have hstep : transcript_step "" t = t := by simp [transcript_step, ht]
      have := foldl_step_join ts (fun x hx => hne x (List.mem_cons_of_mem t hx)) t ht
      cases ts with
      | nil => simp [hstep, join_with_space]
      | cons t' r => simp only [List.foldl_cons, hstep, this]; simp [join_with_space]

lemma transcript_of_eq_foldl (env : TranscriptionEnv) (cs : List AudioChunk) :
    transcript_of env cs = (cs.map (chunk_text env)).foldl transcript_step "" := by
  rw [List.foldl_map]
  rfl

lemma transcript_of_join (env : TranscriptionEnv) (cs : List AudioChunk) :
    transcript_of env cs
      = join_with_space ((cs.map (chunk_text env)).filter (fun t => !(t == ""))) := by
  rw [transcript_of_eq_foldl, foldl_step_filter]
  apply foldl_step_empty_join
  intro t ht
  have := List.of_mem_filter ht
  simpa using this

lemma join_with_space_ne_empty (l : List String) (h : l ≠ [])
    (hne : ∀ t ∈ l, t ≠ "") : join_with_space l ≠ "" := by
  cases l with
  | nil => exact absurd rfl h
  | cons t ts =>
      cases ts with
      | nil => exact hne t (List.mem_cons_self t [])
      | cons t' r =>
          show t ++ " " ++ join_with_space (t' :: r) ≠ ""
          exact str_append_ne_empty _ _
            (str_append_ne_empty _ _ (hne t (List.mem_cons_self t _)))

lemma transcript_of_eq_empty_iff (env : TranscriptionEnv) (cs : List AudioChunk) :
    transcript_of env cs = "" ↔ ∀ c ∈ cs, chunk_text env c = "" := by
  rw [transcript_of_join]
  constructor
  · intro h c hc
    by_contra hne
    apply join_with_space_ne_empty ((cs.map (chunk_text env)).filter (fun t => !(t == ""))) ?_ ?_ h
    · intro hnil
      have hmem : chunk_text env c ∈ (cs.map (chunk_text env)).filter (fun t => !(t == "")) := by
        apply List.mem_filter.mpr
        exact ⟨List.mem_map_of_mem _ hc, by simpa using hne⟩
      rw [hnil] at hmem
      exact (List.not_mem_nil _) hmem
    · intro t ht
      have := List.of_mem_filter ht
      simpa using this
  · intro h
    have : (cs.map (chunk_text env)).filter (fun t => !(t == "")) = [] := by
      apply List.filter_eq_nil_iff.mpr
      intro t ht
      rcases List.mem_map.mp ht with ⟨c, hc, rfl⟩
      simpa using h c hc
    rw [this]
    rfl

lemma transcribe_session_fst (env : TranscriptionEnv) (st : DbState) (sid : String) :
    (transcribe_session env st sid).1 = transcript_of env (db_get_chunks st sid) := by
  unfold transcribe_session
  by_cases h : (db_get_chunks st sid).isEmpty
  · rw [List.isEmpty_iff] at h
    simp [h, transcript_of]
  · simp only [h, if_false]
    by_cases ht : transcript_of env (db_get_chunks st sid) = "" <;> simp [ht]

lemma db_get_chunks_sorted (st : DbState) (sid : String) :
    List.Pairwise (fun a b : AudioChunk => a.chunk_index ≤ b.chunk_index)
      (db_get_chunks st sid) :=
  List.sorted_insertionSort chunkLe _

lemma db_get_chunks_perm (st : DbState) (sid : String) :
    (db_get_chunks st sid).Perm (st.chunks.filter (fun c => c.session_id == sid)) :=
  List.perm_insertionSort _ _

lemma db_get_chunks_mem (st : DbState) (sid : String) :
    ∀ c ∈ db_get_chunks st sid, c.session_id = sid := by
  intro c hc
  have := (db_get_chunks_perm st sid).mem_iff.mp hc
  have := List.of_mem_filter this
  simpa using this

/-- Claim C6: the transcript returned by `transcribe_session` is exactly the
non-empty per-burst transcription results, taken in ascending burst-index
order (the order `get_chunks` delivers), joined with a single space between
consecutive non-empty segments; skipped or empty bursts contribute nothing
and never abort the rest of the session. -/
theorem C6_transcript_is_spaced_concatenation (env : TranscriptionEnv)
    (st : DbState) (sid : String) :
    (transcribe_session env st sid).1
      = join_with_space
          (((db_get_chunks st sid).map (chunk_text env)).filter (fun t => !(t == "")))
    ∧ List.Pairwise (fun a b : AudioChunk => a.chunk_index ≤ b.chunk_index)
        (db_get_chunks st sid) :=
  ⟨by rw [transcribe_session_fst, transcript_of_join], db_get_chunks_sorted st sid⟩

/-- Claim C3: `AudioConverter::m4a_to_pcm` is an unimplemented stub that
returns the empty PCM buffer for every input path and sample rate; with the
decode step wired through it (as `transcribe_session` does, via a temp file
path), every stored burst is skipped at the decode step and the transcript
is always empty. -/
theorem C3_decoder_stub_empty (input_path : String) (target_sample_rate : Int)
    (path_of : List UInt8 → String) (wt : List ℚ → String)
    (wp : List ℚ → List ℚ) (now : Int) (st : DbState) (sid : String) :
    m4a_to_pcm input_path target_sample_rate = []
    ∧ (∀ c : AudioChunk,
        chunk_text ⟨fun bytes => m4a_to_pcm (path_of bytes) 16000, wt, wp, now⟩ c = "")
    ∧ (transcribe_session ⟨fun bytes => m4a_to_pcm (path_of bytes) 16000, wt, wp, now⟩
         st sid).1 = "" := by
  refine ⟨rfl, fun c => rfl, ?_⟩
  rw [transcribe_session_fst]
  exact (transcript_of_eq_empty_iff _ _).mpr (fun c _ => rfl)

/-- Claim C4: when the stored burst list of a session is empty,
`transcribe_session` returns the empty string, the only change to the store
is that session's status becoming `failed`, and no transcript is written. -/
theorem C4_empty_session_fails (env : TranscriptionEnv) (st : DbState)
    (sid : String) (h : db_get_chunks st sid = []) :
    (transcribe_session env st sid).1 = ""
    ∧ (transcribe_session env st sid).2 = db_mark_failed st sid
    ∧ (∀ s ∈ (transcribe_session env st sid).2.sessions,
        s.id = sid → s.status = RecordingStatus.failed)
    ∧ (transcribe_session env st sid).2.sessions.map (fun s => s.transcript)
        = st.sessions.map (fun s => s.transcript) := by
  have hmain : transcribe_session env st sid = ("", db_mark_failed st sid) := by
    unfold transcribe_session
    simp [h]
  refine ⟨by rw [hmain], by rw [hmain], ?_, ?_⟩
  · intro s hs hid
    rw [hmain] at hs
    simp only [db_mark_failed, db_update_status, List.mem_map] at hs
    rcases hs with ⟨s0, _, rfl⟩
    by_cases h0 : s0.id = sid
    · simp [h0]
    · simp only [h0, if_false] at hid
  · rw [hmain]
    simp only [db_mark_failed, db_update_status, List.map_map]
    apply List.map_congr_left
    intro s _
    by_cases h0 : s.id = sid <;> simp [h0]

/-- Trivial external environment used by the concrete witnesses: the decoder
yields nothing, the engine returns no text and reports no progress. -/
def trivialEnv : TranscriptionEnv :=
  { decode := fun _ => [], whisperText := fun _ => "", whisperProg := fun _ => [],
    now := 0 }

/-- Store holding one freshly recorded session `"s"` and no bursts. -/
def stOneEmptySession : DbState :=
  { sessions := [{ id := "s", created_at := 0, completed_at := 0,
                   status := RecordingStatus.recording, duration_ms := 0,
                   transcript := "" }],
    chunks := [] }

/-- Witness for C4: a session with zero bursts is marked failed and yields
the empty transcript. -/
theorem C4_empty_session_fails_witness :
    (transcribe_session trivialEnv stOneEmptySession "s").1 = ""
    ∧ (transcribe_session trivialEnv stOneEmptySession "s").2
        = db_mark_failed stOneEmptySession "s" :=
  ⟨(C4_empty_session_fails trivialEnv stOneEmptySession "s" (by decide)).1,
   (C4_empty_session_fails trivialEnv stOneEmptySession "s" (by decide)).2.1⟩

/-- Claim C8: for any stored chunk table (hence any insertion order),
`get_chunks` returns exactly that session's bursts, as a permutation of the
stored rows for the session, sorted by burst index in ascending order. -/
theorem C8_get_chunks_sorted_ascending (st : DbState) (sid : String) :
    (db_get_chunks st sid).Perm (st.chunks.filter (fun c => c.session_id == sid))
    ∧ List.Pairwise (fun a b : AudioChunk => a.chunk_index ≤ b.chunk_index)
        (db_get_chunks st sid)
    ∧ (∀ c ∈ db_get_chunks st sid, c.session_id = sid) :=
  ⟨db_get_chunks_perm st sid, db_get_chunks_sorted st sid, db_get_chunks_mem st sid⟩

/-- Claim C7: a successful `delete_session` removes every burst of the
session and the session row itself (afterwards `get_chunks` is empty and the
id is absent from `get_sessions`); a failed `delete_session` leaves the
store exactly as it was (the transaction rolls back). -/
theorem C7_delete_session_transactional (st : DbState) (sid : String)
    (db_open okc oks : Bool) :
    ((db_delete_session st db_open okc oks sid).1 = true →
      db_get_chunks (db_delete_session st db_open okc oks sid).2 sid = []
      ∧ (∀ c ∈ (db_delete_session st db_open okc oks sid).2.chunks, c.session_id ≠ sid)
      ∧ (∀ s ∈ db_get_sessions (db_delete_session st db_open okc oks sid).2, s.id ≠ sid)
      ∧ (∀ s ∈ (db_delete_session st db_open okc oks sid).2.sessions, s.id ≠ sid))
    ∧ ((db_delete_session st db_open okc oks sid).1 = false →
      (db_delete_session st db_open okc oks sid).2 = st) := by
  unfold db_delete_session
  cases db_open with
  | false => simp
  | true =>
      cases okc with
      | false => simp
      | true =>
          cases oks with
          | false => simp
          | true =>
              simp only [Bool.not_true, Bool.false_eq_true, if_false]
              refine ⟨fun _ => ⟨?_, ?_, ?_, ?_⟩, fun hf => absurd hf (by simp)⟩
              · unfold db_get_chunks
                have hnil :
                    ((st.chunks.filter (fun c => !(c.session_id == sid))).filter
                      (fun c => c.session_id == sid)) = [] := by
                  apply List.filter_eq_nil_iff.mpr
                  intro c hc
                  have := List.of_mem_filter hc
                  simpa using this
                simp only [hnil]
                rfl
              · intro c hc
                have := List.of_mem_filter hc
                simpa using this
              · intro s hs
                unfold db_get_sessions at hs
                have := (List.perm_insertionSort sessionNewer _).mem_iff.mp hs
                have := List.of_mem_filter this
                simpa using this
              · intro s hs
                have := List.of_mem_filter hs
                simpa using this

/-- Store with one session `"s"` and one stored burst for it, used by the
delete witness. -/
def stOneSessionOneChunk : DbState :=
  { sessions := [{ id := "s", created_at := 0, completed_at := 0,
                   status := RecordingStatus.complete, duration_ms := 35000,
                   transcript := "hi" }],
    chunks := [{ session_id := "s", chunk_index := 0, audio_data := [1, 2],
                 duration_ms := 35000 }] }

/-- Witness for C7: deleting session `"s"` from a store holding it and one
of its bursts empties `get_chunks "s"` and removes the session row. -/
theorem C7_delete_session_transactional_witness :
    db_get_chunks (db_delete_session stOneSessionOneChunk true true true "s").2 "s" = []
    ∧ (∀ s ∈ (db_delete_session stOneSessionOneChunk true true true "s").2.sessions,
        s.id ≠ "s") :=
  let h := (C7_delete_session_transactional stOneSessionOneChunk "s" true true true).1
    (by decide)
  ⟨h.1, h.2.2.2⟩

/-- Claim C9: `compute_rms` is the root-mean-square of the frame's samples
clamped to `[0, 1]` (a null/empty frame yields `0`, which agrees with the
clamped RMS of an empty frame), and the metering level exposed by
`get_metering` always lies in `[0, 1]`, whatever sequence of frames the
capture loop has processed. -/
theorem C9_metering_rms_clamped :
    (∀ samples : List ℝ, compute_rms samples = rms_clamped_spec samples
        ∧ 0 ≤ compute_rms samples ∧ compute_rms samples ≤ 1)
    ∧ (∀ frames : List (List ℝ),
        0 ≤ get_metering (level_after_frames frames)
        ∧ get_metering (level_after_frames frames) ≤ 1) := by
  have hbounds : ∀ samples : List ℝ,
      0 ≤ compute_rms samples ∧ compute_rms samples ≤ 1 := by
    intro samples
    unfold compute_rms
    by_cases h : samples.length = 0
    · simp [h]
    · simp only [h, if_false]
      constructor
      · exact le_min zero_le_one (le_max_left 0 _)
      · exact min_le_left 1 _
  have hlevel : ∀ (frames : List (List ℝ)) (lvl : ℝ),
      0 ≤ lvl → lvl ≤ 1 →
      0 ≤ frames.foldl
            (fun level frame => if 0 < frame.length then compute_rms frame else level) lvl
      ∧ frames.foldl
            (fun level frame => if 0 < frame.length then compute_rms frame else level) lvl
          ≤ 1 := by
    intro frames
    induction frames with
    | nil => intro lvl h0 h1; exact ⟨h0, h1⟩
    | cons f fs ih =>
        intro lvl h0 h1
        simp only [List.foldl_cons]
        by_cases hf : 0 < f.length
        · simp only [hf, if_true]
          exact ih _ (hbounds f).1 (hbounds f).2
        · simp only [hf, if_false]
          exact ih _ h0 h1
  refine ⟨fun samples => ⟨?_, hbounds samples⟩, fun frames => ?_⟩
  · unfold compute_rms rms_clamped_spec
    by_cases h : samples.length = 0
    · have hs : samples = [] := List.length_eq_zero.mp h
      subst hs
      simp
    · simp [h]
  · have := hlevel frames 0 le_rfl zero_le_one
    exact ⟨this.1, this.2⟩

/-- The empty store. -/
def stEmpty : DbState := { sessions := [], chunks := [] }

/-- Run of `StorageManager::start_recording` in which nothing is recording,
the session INSERT succeeds with fresh id `"s1"`, and
`AudioRecorder::start_recording` then fails (capture device or encoder
cannot be opened). -/
def startEnvDeviceFail : StartEnv :=
  { already_recording := false, create_ok := true, new_session_id := "s1",
    recorder_ok := false, now := 0 }

/-- Counterexample to claim C1 as stated: in a run where
`AudioRecorder::start_recording` returns false, `start_recording` does
report failure (empty id), but the set of persisted sessions afterwards is
NOT equal to the set before the call — the session row created before the
recorder was started remains in the store (marked failed). -/
theorem C1_counterexample_session_remains :
    (start_recording startEnvDeviceFail stEmpty).1 = ""
    ∧ (start_recording startEnvDeviceFail stEmpty).2.sessions ≠ stEmpty.sessions := by
  constructor
  · rfl
  · decide

/-- Claim C1 amended: if the capture device or encoder cannot be opened
(`AudioRecorder::start_recording` returns false) while the session INSERT
succeeded, `StorageManager::start_recording` reports failure by returning
the empty string, and the session row created at the start of the call
remains persisted with status `failed` (it is not removed); the chunk table
is untouched. -/
theorem C1_amended_failed_start_marks_failed (st : DbState) (nid : String)
    (nw : Int) (h4 : nid ≠ "") (h5 : ∀ s ∈ st.sessions, s.id ≠ nid) :
    (start_recording ⟨false, true, nid, false, nw⟩ st).1 = ""
    ∧ (start_recording ⟨false, true, nid, false, nw⟩ st).2.sessions
        = st.sessions ++
            [{ id := nid, created_at := nw, completed_at := 0,
               status := RecordingStatus.failed, duration_ms := 0, transcript := "" }]
    ∧ (start_recording ⟨false, true, nid, false, nw⟩ st).2.chunks = st.chunks := by
  have hmain : start_recording ⟨false, true, nid, false, nw⟩ st
      = ("", db_mark_failed
          { st with sessions := (st.sessions ++
              [{ id := nid, created_at := nw, completed_at := 0,
                 status := RecordingStatus.recording, duration_ms := 0,
                 transcript := "" }]) } nid) := by
    simp [start_recording, db_create_session, h4]
  refine ⟨by rw [hmain], ?_, by rw [hmain]; rfl⟩
  rw [hmain]
  show ((st.sessions ++ _).map _) = _
  rw [List.map_append]
  congr 1
  · have hcong : (st.sessions.map
        (fun s => if s.id = nid then { s with status := RecordingStatus.failed } else s))
        = st.sessions.map id :=
      List.map_congr_left (fun s hs => by simp [h5 s hs])
    rw [hcong, List.map_id]
  · simp

/-- Witness for the amended C1 at the concrete failing run
`startEnvDeviceFail` on the empty store. -/
theorem C1_amended_failed_start_marks_failed_witness :
    (start_recording startEnvDeviceFail stEmpty).1 = ""
    ∧ (start_recording startEnvDeviceFail stEmpty).2.sessions
        = stEmpty.sessions ++
            [{ id := "s1", created_at := 0, completed_at := 0,
               status := RecordingStatus.failed, duration_ms := 0, transcript := "" }] :=
  let h := C1_amended_failed_start_marks_failed stEmpty "s1" 0
    (by decide) (fun s hs => absurd hs (List.not_mem_nil s))
  ⟨h.1, h.2.1⟩

lemma chunk_progress_events_mem (env : TranscriptionEnv) (n k : ℕ)
    (hn : 0 < n) (c : AudioChunk)
    (hmem : ∀ pcm, ∀ p ∈ env.whisperProg pcm, 0 ≤ p ∧ p ≤ 1) :
    ∀ e ∈ chunk_progress_events env n k c,
      (k : ℚ) / (n : ℚ) ≤ e ∧ e ≤ ((k : ℚ) + 1) / (n : ℚ) := by
  intro e he
  unfold chunk_progress_events at he
  by_cases hd : (env.decode c.audio_data).isEmpty
  · simp [hd] at he
  · rw [if_neg hd] at he
    rcases List.mem_map.mp he with ⟨p, hp, rfl⟩
    obtain ⟨hp0, hp1⟩ := hmem _ p hp
    have hnq : (0 : ℚ) < (n : ℚ) := by exact_mod_cast hn
    have hinv : (0 : ℚ) ≤ 1 / (n : ℚ) := by positivity
    constructor
    · have : (0 : ℚ) ≤ p * (1 / (n : ℚ)) := mul_nonneg hp0 hinv
      calc (k : ℚ) / (n : ℚ) = (k : ℚ) * (1 / (n : ℚ)) := by ring
        _ ≤ (k : ℚ) * (1 / (n : ℚ)) + p * (1 / (n : ℚ)) := by linarith
    · have : p * (1 / (n : ℚ)) ≤ 1 * (1 / (n : ℚ)) :=
        mul_le_mul_of_nonneg_right hp1 hinv
      calc (k : ℚ) * (1 / (n : ℚ)) + p * (1 / (n : ℚ))
          ≤ (k : ℚ) * (1 / (n : ℚ)) + 1 * (1 / (n : ℚ)) := by linarith
        _ = ((k : ℚ) + 1) / (n : ℚ) := by ring

lemma chunk_progress_events_chain (env : TranscriptionEnv) (n k : ℕ)
    (c : AudioChunk)
    (hmono : ∀ pcm, List.Chain' (· ≤ ·) (env.whisperProg pcm)) :
    List.Chain' (· ≤ ·) (chunk_progress_events env n k c) := by
  unfold chunk_progress_events
  by_cases hd : (env.decode c.audio_data).isEmpty
  · simp [hd]
  · rw [if_neg hd]
    rw [List.chain'_map]
    refine (hmono (env.decode c.audio_data)).imp ?_
    intro a b hab
    have hinv : (0 : ℚ) ≤ 1 / (n : ℚ) := by positivity
    have := mul_le_mul_of_nonneg_right hab hinv
    linarith

lemma progress_loop_props (env : TranscriptionEnv) (n : ℕ) (hn : 0 < n)
    (hmono : ∀ pcm, List.Chain' (· ≤ ·) (env.whisperProg pcm))
    (hmem : ∀ pcm, ∀ p ∈ env.whisperProg pcm, 0 ≤ p ∧ p ≤ 1) :
    ∀ (cs : List AudioChunk) (k : ℕ), k + cs.length = n →
      List.Chain' (· ≤ ·) (progress_events_loop env n k cs)
      ∧ (∀ e ∈ progress_events_loop env n k cs, (k : ℚ) / (n : ℚ) ≤ e ∧ e ≤ 1)
      ∧ (progress_events_loop env n k cs).getLast? = some 1
      ∧ progress_events_loop env n k cs ≠ [] := by
  intro cs
  induction cs with
  | nil =>
      intro k hk
      have hkn : k = n := by simpa using hk
      have hnq : ((n : ℚ)) ≠ 0 := by exact_mod_cast hn.ne'
      have hnil : progress_events_loop env n k [] = [1] := rfl
      rw [hnil]
      refine ⟨List.chain'_singleton 1, ?_, rfl, by simp⟩
      intro e he
      have he1 : e = 1 := by simpa using he
      subst he1
      refine ⟨?_, le_refl 1⟩
      rw [hkn, div_self hnq]
  | cons c rest ih =>
      intro k hk
      rw [List.length_cons] at hk
      have hk' : (k + 1) + rest.length = n := by omega
      obtain ⟨ihchain, ihmem, ihlast, ihne⟩ := ih (k + 1) hk'
      have hkn1 : ((k : ℚ) + 1) / (n : ℚ) ≤ 1 := by
        have hle : (k + 1 : ℕ) ≤ n := by omega
        have hnq : (0 : ℚ) < (n : ℚ) := by exact_mod_cast hn
        rw [div_le_one hnq]
        exact_mod_cast hle
      have hcemem := chunk_progress_events_mem env n k hn c hmem
      have hloop : progress_events_loop env n k (c :: rest)
          = chunk_progress_events env n k c ++ progress_events_loop env n (k + 1) rest :=
        rfl
      have hcast : ((k + 1 : ℕ) : ℚ) = (k : ℚ) + 1 := by push_cast; ring
      refine ⟨?_, ?_, ?_, ?_⟩
      · rw [hloop, List.chain'_append]
        refine ⟨chunk_progress_events_chain env n k c hmono, ihchain, ?_⟩
        intro x hx y hy
        have hxmem := List.mem_of_mem_getLast? hx
        have hymem := List.mem_of_mem_head? hy
        have hx' := (hcemem x hxmem).2
        have hy' := (ihmem y hymem).1
        rw [hcast] at hy'
        linarith
      · intro e he
        rw [hloop, List.mem_append] at he
        rcases he with he | he
        · obtain ⟨h1, h2⟩ := hcemem e he
          exact ⟨h1, le_trans h2 hkn1⟩
        · obtain ⟨h1, h2⟩ := ihmem e he
          rw [hcast] at h1
          have hd : (k : ℚ) / (n : ℚ) ≤ ((k : ℚ) + 1) / (n : ℚ) := by
            have hnq : (0 : ℚ) < (n : ℚ) := by exact_mod_cast hn
            rw [div_le_div_iff₀ hnq hnq]
            have hk1 : (k : ℚ) ≤ (k : ℚ) + 1 := by linarith
            exact mul_le_mul_of_nonneg_right hk1 (le_of_lt hnq)
          exact ⟨le_trans hd h1, h2⟩
      · rw [hloop, List.getLast?_append_of_ne_nil _ ihne]
        exact ihlast
      · rw [hloop]
        intro hcontr
        exact ihne (List.append_eq_nil.mp hcontr).2

/-- Counterexample input for C5 and concrete state for the C5 witness: one
session `"s"` with exactly one stored burst. -/
def stC5 : DbState :=
  { sessions := [{ id := "s", created_at := 0, completed_at := 0,
                   status := RecordingStatus.recording, duration_ms := 0,
                   transcript := "" }],
    chunks := [{ session_id := "s", chunk_index := 0, audio_data := [],
                 duration_ms := 35000 }] }

/-- Engine whose decode succeeds and whose progress callback reports the
single value `1` (i.e. internal progress `p = 1`, allowed by `p ∈ [0,1]`). -/
def envFullProg : TranscriptionEnv :=
  { decode := fun _ => [0], whisperText := fun _ => "x",
    whisperProg := fun _ => [1], now := 0 }

/-- Counterexample to claim C5 as stated: with `N = 1` burst whose internal
progress reaches `p = 1`, the delivered sequence is `[(0 + 1)/1, 1.0] =
[1, 1]` — the per-burst callback delivers `1.0` and the unconditional final
`progress(1.0f)` delivers it again, so `1.0` is reached twice, not exactly
once. -/
theorem C5_counterexample_double_one :
    session_progress_events envFullProg stC5 "s" = [1, 1]
    ∧ (session_progress_events envFullProg stC5 "s").count 1 ≠ 1 := by
  have hc : db_get_chunks stC5 "s"
      = [{ session_id := "s", chunk_index := 0, audio_data := [],
           duration_ms := 35000 }] := by decide
  have h : session_progress_events envFullProg stC5 "s" = [1, 1] := by
    rw [session_progress_events, hc]
    show progress_events_loop envFullProg 1 0 _ = [1, 1]
    show chunk_progress_events envFullProg 1 0 _ ++ [1] = [1, 1]
    rw [chunk_progress_events]
    norm_num [envFullProg]
  refine ⟨h, by rw [h]; simp⟩

/-- Claim C5 amended: provided the engine's per-burst internal progress is
non-decreasing within `[0, 1]`, the values delivered to the progress
callback for a session with at least one burst form a monotonically
non-decreasing sequence contained in `[0, 1]` whose last value is exactly
`1.0` (the final unconditional `progress(1.0f)`); each per-burst value is
`(i + p)/N` for burst position `i` and internal progress `p`.  Contrary to
the claim, `1.0` need not occur exactly once: it is also delivered by the
last burst's own callback whenever that burst's internal progress reaches
`1` (see the counterexample). -/
theorem C5_amended_progress_monotone (env : TranscriptionEnv) (st : DbState)
    (sid : String) (hne : db_get_chunks st sid ≠ [])
    (hmono : ∀ pcm, List.Chain' (· ≤ ·) (env.whisperProg pcm))
    (hmem : ∀ pcm, ∀ p ∈ env.whisperProg pcm, 0 ≤ p ∧ p ≤ 1) :
    List.Chain' (· ≤ ·) (session_progress_events env st sid)
    ∧ (∀ e ∈ session_progress_events env st sid, 0 ≤ e ∧ e ≤ 1)
    ∧ (session_progress_events env st sid).getLast? = some 1
    ∧ (∀ (n i : ℕ) (c : AudioChunk), ¬(env.decode c.audio_data).isEmpty →
        chunk_progress_events env n i c
          = (env.whisperProg (env.decode c.audio_data)).map
              (fun p => ((i : ℚ) + p) / (n : ℚ))) := by
  have hform : ∀ (n i : ℕ) (c : AudioChunk), ¬(env.decode c.audio_data).isEmpty →
      chunk_progress_events env n i c
        = (env.whisperProg (env.decode c.audio_data)).map
            (fun p => ((i : ℚ) + p) / (n : ℚ)) := by
    intro n i c hd
    rw [chunk_progress_events, if_neg hd]
    apply List.map_congr_left
    intro p _
    ring
  have hlen : 0 < (db_get_chunks st sid).length := List.length_pos.mpr hne
  have hprops := progress_loop_props env (db_get_chunks st sid).length hlen hmono hmem
    (db_get_chunks st sid) 0 (by simp)
  have hsess : session_progress_events env st sid
      = progress_events_loop env (db_get_chunks st sid).length 0 (db_get_chunks st sid) := by
    rw [session_progress_events, if_neg (by simpa [List.isEmpty_iff] using hne)]
  obtain ⟨hchain, hmem', hlast, _⟩ := hprops
  refine ⟨?_, ?_, ?_, hform⟩
  · rw [hsess]; exact hchain
  · rw [hsess]
    intro e he
    have := hmem' e he
    constructor
    · have h0 : ((0 : ℕ) : ℚ) / ((db_get_chunks st sid).length : ℚ) = 0 := by
        simp
      rw [h0] at this
      exact this.1
    · exact this.2
  · rw [hsess]; exact hlast

/-- Engine with monotone internal progress `[1/2]`, used by the C5 witness. -/
def envHalfProg : TranscriptionEnv :=
  { decode := fun _ => [0], whisperText := fun _ => "x",
    whisperProg := fun _ => [1/2], now := 0 }

/-- Witness for the amended C5 on the one-burst store `stC5` with a
well-behaved engine. -/
theorem C5_amended_progress_monotone_witness :
    List.Chain' (· ≤ ·) (session_progress_events envHalfProg stC5 "s")
    ∧ (session_progress_events envHalfProg stC5 "s").getLast? = some 1 :=
  let h := C5_amended_progress_monotone envHalfProg stC5 "s"
    (by decide)
    (fun _ => List.chain'_singleton _)
    (fun pcm p hp => by
      have hp' : p = 1/2 := by simpa [envHalfProg] using hp
      subst hp'
      norm_num)
  ⟨h.1, h.2.2.1⟩

lemma transcribe_session_chunks (env : TranscriptionEnv) (st : DbState)
    (sid : String) : (transcribe_session env st sid).2.chunks = st.chunks := by
  unfold transcribe_session
  by_cases h : (db_get_chunks st sid).isEmpty
  · simp [h, db_mark_failed, db_update_status]
  · simp only [h, if_false]
    by_cases ht : transcript_of env (db_get_chunks st sid) = "" <;>
      simp [ht, db_mark_failed, db_update_status, db_update_transcript]

lemma recover_step_chunks (env : TranscriptionEnv) (st : DbState)
    (sid : String) : (recover_step env st sid).chunks = st.chunks := by
  unfold recover_step
  by_cases h : (db_get_chunks st sid).isEmpty
  · simp [h, db_mark_failed, db_update_status]
  · rw [if_neg h, transcribe_session_chunks]
    rfl

lemma transcribe_session_snd (env : TranscriptionEnv) (st : DbState)
    (sid : String) :
    (transcribe_session env st sid).2
      = if db_get_chunks st sid = [] then db_mark_failed st sid
        else if transcript_of env (db_get_chunks st sid) = ""
          then db_mark_failed st sid
          else db_update_transcript st sid (transcript_of env (db_get_chunks st sid))
                 (((db_get_chunks st sid).map (fun c => c.duration_ms)).sum) env.now := by
  unfold transcribe_session
  by_cases h : (db_get_chunks st sid).isEmpty
  · have hnil := List.isEmpty_iff.mp h
    simp [h, hnil]
  · have hne : ¬db_get_chunks st sid = [] := fun hh => by simp [hh] at h
    simp only [h, if_false, hne]
    by_cases ht : transcript_of env (db_get_chunks st sid) = "" <;> simp [ht]

lemma all_texts_iff (env : TranscriptionEnv) (chunks : List AudioChunk) :
    (chunks.all (fun c => chunk_text env c == "")) = true
      ↔ transcript_of env chunks = "" := by
  rw [transcript_of_eq_empty_iff, List.all_eq_true]
  constructor <;> intro h c hc
  · exact eq_of_beq (h c hc)
  · exact beq_iff_eq.mpr (h c hc)

lemma recover_outcome_id (env : TranscriptionEnv) (chunks : List AudioChunk)
    (s : RecordingSession) : (recover_outcome env chunks s).id = s.id := by
  unfold recover_outcome
  split_ifs <;> rfl

lemma recover_outcome_status (env : TranscriptionEnv) (chunks : List AudioChunk)
    (s : RecordingSession) :
    (recover_outcome env chunks s).status ≠ RecordingStatus.recording := by
  unfold recover_outcome
  split_ifs <;> simp

lemma db_get_chunks_update_status (st : DbState) (sid' : String)
    (stat : RecordingStatus) (sid : String) :
    db_get_chunks (db_update_status st sid' stat) sid = db_get_chunks st sid := rfl

lemma recover_step_sessions (env : TranscriptionEnv) (st : DbState) (sid : String) :
    (recover_step env st sid).sessions
      = st.sessions.map (fun s =>
          if s.id = sid then recover_outcome env (db_get_chunks st sid) s else s) := by
  unfold recover_step
  by_cases h : (db_get_chunks st sid).isEmpty
  · have hnil := List.isEmpty_iff.mp h
    simp only [h, if_true]
    show (st.sessions.map _) = _
    apply List.map_congr_left
    intro s _
    by_cases hid : s.id = sid
    · simp [hid, recover_outcome, hnil]
    · simp [hid]
  · have hne : ¬db_get_chunks st sid = [] := fun hh => by simp [hh] at h
    simp only [h, if_false]
    rw [transcribe_session_snd, db_get_chunks_update_status, if_neg hne]
    by_cases ht : transcript_of env (db_get_chunks st sid) = ""
    · rw [if_pos ht]
      show ((st.sessions.map _).map _) = _
      rw [List.map_map]
      apply List.map_congr_left
      intro s _
      have hall : ((db_get_chunks st sid).all (fun c => chunk_text env c == "")) = true :=
        (all_texts_iff env _).mpr ht
      by_cases hid : s.id = sid
      · simp [Function.comp, hid, recover_outcome, hne, hall,
          List.isEmpty_iff]
      · simp [Function.comp, hid]
    · rw [if_neg ht]
      show ((st.sessions.map _).map _) = _
      rw [List.map_map]
      apply List.map_congr_left
      intro s _
      have hall : ¬((db_get_chunks st sid).all (fun c => chunk_text env c == "")) = true :=
        fun hh => ht ((all_texts_iff env _).mp hh)
      by_cases hid : s.id = sid
      · simp [Function.comp, hid, recover_outcome, hne, hall, List.isEmpty_iff]
      · simp [Function.comp, hid]

lemma recover_fold_sessions (env : TranscriptionEnv) (st0 : DbState) :
    ∀ (ids : List String) (acc : DbState), acc.chunks = st0.chunks → ids.Nodup →
      (ids.foldl (fun a sid => recover_step env a sid) acc).sessions
        = acc.sessions.map (fun s =>
            if s.id ∈ ids then recover_outcome env (db_get_chunks st0 s.id) s else s) := by
  intro ids
  induction ids with
  | nil =>
      intro acc _ _
      simp
  | cons x ids ih =>
      intro acc hch hnd
      rw [List.foldl_cons,
        ih (recover_step env acc x) (by rw [recover_step_chunks]; exact hch)
          hnd.of_cons,
        recover_step_sessions, List.map_map]
      apply List.map_congr_left
      intro s _
      have hgc : db_get_chunks acc x = db_get_chunks st0 x := by
        unfold db_get_chunks
        rw [hch]
      by_cases hx : s.id = x
      · have hxnotin : x ∉ ids := (List.nodup_cons.mp hnd).1
        simp only [Function.comp_apply]
        rw [if_pos hx, hgc, recover_outcome_id, hx, if_neg hxnotin,
          if_pos (List.mem_cons_self x ids)]
      · simp only [Function.comp_apply]
        rw [if_neg hx]
        have hiff : (s.id ∈ x :: ids) ↔ (s.id ∈ ids) := by
          simp [List.mem_cons, hx]
        by_cases hmem : s.id ∈ ids
        · rw [if_pos hmem, if_pos (hiff.mpr hmem)]
        · rw [if_neg hmem, if_neg (fun hc => hmem (hiff.mp hc))]

lemma orphan_ids_nodup (st : DbState)
    (hN : (st.sessions.map (fun s => s.id)).Nodup) :
    ((db_get_orphaned_sessions st).map (fun s => s.id)).Nodup := by
  have hperm : ((db_get_orphaned_sessions st).map (fun s => s.id)).Perm
      ((st.sessions.filter
          (fun s => s.status == RecordingStatus.recording)).map (fun s => s.id)) :=
    (List.perm_insertionSort sessionNewer _).map _
  have hsub : ((st.sessions.filter
      (fun s => s.status == RecordingStatus.recording)).map (fun s => s.id)).Sublist
      (st.sessions.map (fun s => s.id)) :=
    (List.filter_sublist _).map _
  exact hperm.symm.nodup (hsub.nodup hN)

lemma orphan_ids_mem_iff (st : DbState)
    (hN : (st.sessions.map (fun s => s.id)).Nodup)
    (s : RecordingSession) (hs : s ∈ st.sessions) :
    s.id ∈ (db_get_orphaned_sessions st).map (fun s => s.id)
      ↔ s.status = RecordingStatus.recording := by
  have hperm : ((db_get_orphaned_sessions st).map (fun s => s.id)).Perm
      ((st.sessions.filter
          (fun s => s.status == RecordingStatus.recording)).map (fun s => s.id)) :=
    (List.perm_insertionSort sessionNewer _).map _
  rw [hperm.mem_iff]
  constructor
  · intro hmem
    rcases List.mem_map.mp hmem with ⟨s', hs', hid⟩
    have hs'mem := List.mem_of_mem_filter hs'
    have hs'rec : s'.status = RecordingStatus.recording := by
      have := List.of_mem_filter hs'
      simpa using this
    have : s' = s := List.inj_on_of_nodup_map hN hs'mem hs hid
    rw [← this]
    exact hs'rec
  · intro hrec
    apply List.mem_map_of_mem
    exact List.mem_filter.mpr ⟨hs, by simp [hrec]⟩

lemma recover_orphaned_sessions_eq (env : TranscriptionEnv) (st : DbState)
    (hN : (st.sessions.map (fun s => s.id)).Nodup) :
    (recover_orphaned_sessions env st).sessions
      = st.sessions.map (fun s =>
          if s.status = RecordingStatus.recording
          then recover_outcome env (db_get_chunks st s.id) s else s) := by
  unfold recover_orphaned_sessions
  rw [show ((db_get_orphaned_sessions st).foldl (fun acc s => recover_step env acc s.id) st)
      = (((db_get_orphaned_sessions st).map (fun s => s.id)).foldl
          (fun a sid => recover_step env a sid) st) by rw [List.foldl_map]]
  rw [recover_fold_sessions env st _ st rfl (orphan_ids_nodup st hN)]
  apply List.map_congr_left
  intro s hs
  by_cases hrec : s.status = RecordingStatus.recording
  · rw [if_pos ((orphan_ids_mem_iff st hN s hs).mpr hrec), if_pos hrec]
  · rw [if_neg (fun hmem => hrec ((orphan_ids_mem_iff st hN s hs).mp hmem)),
      if_neg hrec]

/-- Claim C2: after startup recovery, no session is left in status
`recording`: recovery rewrites exactly the orphaned sessions, an orphan with
no persisted bursts becomes `failed` directly, and an orphan with at least
one burst is first set to `transcribing` and run through the normal
transcription path, ending `complete` exactly when some burst yields text
and `failed` otherwise (`recover_outcome` spells out those final rows).
Session ids are assumed unique, as the `sessions.id` PRIMARY KEY guarantees. -/
theorem C2_recovery_no_recording_left (env : TranscriptionEnv) (st : DbState)
    (hN : (st.sessions.map (fun s => s.id)).Nodup) :
    ((recover_orphaned_sessions env st).sessions
        = st.sessions.map (fun s =>
            if s.status = RecordingStatus.recording
            then recover_outcome env (db_get_chunks st s.id) s else s))
    ∧ (∀ s ∈ (recover_orphaned_sessions env st).sessions,
        s.status ≠ RecordingStatus.recording)
    ∧ (∀ (acc : DbState) (sid : String), db_get_chunks acc sid ≠ [] →
        recover_step env acc sid
          = (transcribe_session env
              (db_update_status acc sid RecordingStatus.transcribing) sid).2)
    ∧ (∀ (chunks : List AudioChunk) (s : RecordingSession), chunks ≠ [] →
        ((recover_outcome env chunks s).status = RecordingStatus.complete
          ↔ ∃ c ∈ chunks, chunk_text env c ≠ "")) := by
  refine ⟨recover_orphaned_sessions_eq env st hN, ?_, ?_, ?_⟩
  · intro s' hs'
    rw [recover_orphaned_sessions_eq env st hN] at hs'
    rcases List.mem_map.mp hs' with ⟨s0, _, rfl⟩
    by_cases hrec : s0.status = RecordingStatus.recording
    · rw [if_pos hrec]
      exact recover_outcome_status env _ s0
    · rw [if_neg hrec]
      exact hrec
  · intro acc sid hne
    unfold recover_step
    rw [if_neg (fun hh => hne (List.isEmpty_iff.mp hh))]
  · intro chunks s hne
    unfold recover_outcome
    rw [if_neg (fun hh => hne (List.isEmpty_iff.mp hh))]
    by_cases hall : (chunks.all (fun c => chunk_text env c == "")) = true
    · rw [if_pos hall]
      have htexts : ∀ c ∈ chunks, chunk_text env c = "" :=
        fun c hc => eq_of_beq (List.all_eq_true.mp hall c hc)
      constructor
      · intro h
        exact absurd h (by simp)
      · rintro ⟨c, hc, hcne⟩
        exact absurd (htexts c hc) hcne
    · rw [if_neg hall]
      constructor
      · intro _
        rw [List.all_eq_true] at hall
        push_neg at hall
        rcases hall with ⟨c, hc, hcne⟩
        exact ⟨c, hc, fun he => hcne (by simp [he])⟩
      · intro _
        rfl

/-- Witness for C2 on a store with one orphaned session and no bursts. -/
theorem C2_recovery_no_recording_left_witness :
    (recover_orphaned_sessions trivialEnv stOneEmptySession).sessions
      = stOneEmptySession.sessions.map (fun s =>
          if s.status = RecordingStatus.recording
          then recover_outcome trivialEnv (db_get_chunks stOneEmptySession s.id) s
          else s) :=
  (C2_recovery_no_recording_left trivialEnv stOneEmptySession (by decide)).1
